import Mathlib

/-!
# Verification of `theiaphylo` / `phylocompare.py`

Shallow embedding of `src/theiaphylo/phylocompare.py` (the orchestration
shell around the external `TheiaPhylo` tree library) together with a
spec-modelled account of the distance metrics themselves, and theorems
settling the claims about the program.

Conventions of the embedding:
* A tree pair is abstracted by the oracle `tree_distance : Method → Nat`,
  standing for `tree1.tree_distance(tree2, method=...)` of the external
  library; the distance values themselves are modelled from the spec in
  the `rf_distance` / `mc_distance` / `lrm_distance` section below.
* Python truthiness of the `args.outgroup` string (argparse default
  `None`, falsy also for the empty string) is `strTruthy`.
* Side effects of `main` (calls to `import_tree`, writing the result
  file) are recorded as an explicit event trace.
-/

/-- The four method names accepted by `Tree.tree_distance` as used in
`compare_trees`. -/
inductive Method
  | rooted_robinson_foulds
  | matching_cluster
  | lin_rajan_moret
  | unrooted_robinson_foulds
deriving DecidableEq

/-- Embedding of `compare_trees(tree1, tree2, mc, rf, lrm, rooted)`
(phylocompare.py lines 10-29).  The pair of trees is abstracted by the
oracle `tree_distance`.  The Python function initialises
`mc_dist, rf_dist, lrm_dist = None, None, None`, fills the applicable
ones, and returns the tuple `(mc_dist, rf_dist, lrm_dist)` in that
order. -/
def compare_trees (tree_distance : Method → Nat) (mc rf lrm rooted : Bool) :
    Option Nat × Option Nat × Option Nat :=
  if rooted then
    let rf_dist := if rf then some (tree_distance Method.rooted_robinson_foulds) else none
    let mc_dist := if mc then some (tree_distance Method.matching_cluster) else none
    (mc_dist, rf_dist, none)
  else
    let lrm_dist := if lrm then some (tree_distance Method.lin_rajan_moret) else none
    let rf_dist := if rf then some (tree_distance Method.unrooted_robinson_foulds) else none
    (none, rf_dist, lrm_dist)

/-- Python f-string rendering of one result slot: an `int` prints in
decimal and `None` prints as the text `None`. -/
def pyFormat : Option Nat → String
  | none => "None"
  | some n => toString n

/-- The three tab-separated fields of the data line written by
`output_results` (phylocompare.py line 38), in written order
`tree_res[0], tree_res[1], tree_res[2]`. -/
def output_fields (tree_res : Option Nat × Option Nat × Option Nat) : List String :=
  [pyFormat tree_res.1, pyFormat tree_res.2.1, pyFormat tree_res.2.2]

/-- Embedding of `output_results(res_path, tree_res)` (phylocompare.py
lines 32-38): the two lines of text written to the result file. -/
def output_results (tree_res : Option Nat × Option Nat × Option Nat) : List String :=
  ["#robinson_foulds_distance\tmatching_cluster_distance\tlin-rajan-moret_distance",
   String.intercalate "\t" (output_fields tree_res)]

/-- The parsed command-line arguments relevant to `main`
(argparse setup, phylocompare.py lines 82-127).  `outgroup` is `none`
when `-o` was not given, otherwise the raw comma-separated string. -/
structure Args where
  tree1 : String
  tree2 : String
  outgroup : Option String
  midpoint : Bool
  unrooted : Bool
  matching_cluster : Bool
  robinson_foulds : Bool
  lin_rajan_moret : Bool
deriving DecidableEq

/-- Python truthiness of `args.outgroup`: `None` and the empty string
are falsy, any other string is truthy. -/
def strTruthy : Option String → Bool
  | none => false
  | some s => !s.isEmpty

/-- Python `str.split(sep)` for a one-character separator, over the
character list of the string: splitting the empty string gives `[""]`,
and each separator occurrence opens a new field. -/
def pySplitChars (sep : Char) : List Char → List (List Char)
  | [] => [[]]
  | c :: rest =>
      match pySplitChars sep rest with
      | [] => [[c]]
      | g :: gs => if c = sep then [] :: g :: gs else (c :: g) :: gs

/-- Python `s.split(sep)` for a one-character separator. -/
def pySplit (s : String) (sep : Char) : List String :=
  (pySplitChars sep s.data).map (fun cs => String.mk cs)

/-- The errors `main` can raise during configuration validation:
the three `ValueError`s of lines 44-59 and the `RootError` of line 56. -/
inductive PhyloError
  | outgroupAndMidpoint
  | unrootedAndRooting
  | multipleOutgroups
  | noRootingMethod
deriving DecidableEq

/-- The two `ValueError`s that report conflicting rooting modes
(`ConfigError::ConflictingRootingModes` in the spec's terms). -/
def PhyloError.isConflictingRooting : PhyloError → Bool
  | PhyloError.outgroupAndMidpoint => true
  | PhyloError.unrootedAndRooting => true
  | _ => false

/-- Embedding of the configuration-validation prefix of `main`
(phylocompare.py lines 43-61).  On success it returns the `rooted`
flag and the `outgroup` label list subsequently passed to
`import_tree`. -/
def validateArgs (args : Args) : Except PhyloError (Bool × List String) :=
  if strTruthy args.outgroup && args.midpoint then
    Except.error PhyloError.outgroupAndMidpoint
  else if strTruthy args.outgroup || args.midpoint then
    if args.unrooted then
      Except.error PhyloError.unrootedAndRooting
    else if strTruthy args.outgroup then
      let outgroup := pySplit (args.outgroup.getD "") ','
      if outgroup.length > 1 then
        Except.error PhyloError.multipleOutgroups
      else
        Except.ok (true, outgroup)
    else
      Except.ok (true, [])
  else if !args.unrooted then
    Except.error PhyloError.noRootingMethod
  else
    Except.ok (false, [])

/-- Observable side effects of `main`: a call
`import_tree(Path(path), outgroup=outgroup, midpoint=midpoint)` and the
write performed by `output_results`. -/
inductive Event
  | importTree (path : String) (outgroup : List String) (midpoint : Bool)
  | writeResults (tree_res : Option Nat × Option Nat × Option Nat)
deriving DecidableEq

/-- Embedding of `main(args)` (phylocompare.py lines 41-78): validate
the configuration, import the two trees, compare them and write the
results.  The returned list is the trace of side effects in program
order; a raised error aborts the run with an empty trace. -/
def main_trace (args : Args) (tree_distance : Method → Nat) : Except PhyloError (List Event) :=
  match validateArgs args with
  | Except.error e => Except.error e
  | Except.ok (rooted, outgroup) =>
      let tree_res := compare_trees tree_distance
        args.matching_cluster args.robinson_foulds args.lin_rajan_moret rooted
      Except.ok [Event.importTree args.tree1 outgroup args.midpoint,
                 Event.importTree args.tree2 outgroup args.midpoint,
                 Event.writeResults tree_res]

/-- Embedding of the default-metric block of `__main__`
(phylocompare.py lines 139-147): when none of the three metric flags
was supplied, all three are switched on. -/
def apply_default_metrics (mc rf lrm : Bool) : Bool × Bool × Bool :=
  if !mc && !rf && !lrm then (true, true, true) else (mc, rf, lrm)

/-! ## Spec-modelled distance metrics

The tree model and the metric computations live in the external
`TheiaPhylo` module, which is not part of the sources; they are modelled
here from the spec over cluster / bipartition sets. -/

/-- Modelled from the spec: the cluster-to-cluster mismatch cost of §4.3,
the size of the symmetric difference of the two leaf-label sets. -/
def cluster_mismatch (X Y : Finset Nat) : Nat := ((X \ Y) ∪ (Y \ X)).card

/-- All ways to pick one element out of a list, each paired with the
list of the remaining elements. -/
def pickOne {α : Type} : List α → List (α × List α)
  | [] => []
  | y :: ys => (y, ys) :: (pickOne ys).map (fun p => (p.1, y :: p.2))

/-- Modelled from the spec: minimum total cost of a (possibly partial)
matching between two lists, where matching `x` with `y` costs
`cost x y` and an unmatched element `z` incurs the penalty `pen z`
(§4.3: "unmatched clusters incur a full-size penalty equal to their own
cluster size"). -/
def minMatch {α : Type} (cost : α → α → Nat) (pen : α → Nat) : List α → List α → Nat
  | [], ys => (ys.map pen).sum
  | x :: xs, ys =>
      ((pickOne ys).map (fun p => cost x p.1 + minMatch cost pen xs p.2)).foldl min
        (pen x + minMatch cost pen xs ys)

/-- Modelled from the spec: Robinson-Foulds distance, the cardinality of
the symmetric difference of the two cluster (rooted) or canonicalized
bipartition (unrooted) sets (§4.3). -/
def rf_distance (A B : Finset (Finset Nat)) : Nat := ((A \ B) ∪ (B \ A)).card

/-- Modelled from the spec: Matching Cluster distance, the minimum-weight
matching between the two cluster sets under `cluster_mismatch`, with an
unmatched cluster penalised by its own size (§4.3).  A tree's cluster
collection is carried as a duplicate-free enumeration list; §5 notes
that correctness does not depend on the enumeration order. -/
def mc_distance (A B : List (Finset Nat)) : Nat :=
  minMatch cluster_mismatch Finset.card A B

/-- Modelled from the spec: Lin-Rajan-Moret distance, the analogous
minimum-weight matching over canonicalized bipartitions (§4.3, each
bipartition represented by its canonical side as in §4.2). -/
def lrm_distance (A B : List (Finset Nat)) : Nat :=
  minMatch cluster_mismatch Finset.card A B

/-- Modelled from the spec: the `tree_distance` oracle induced by the
cluster enumerations `c1, c2` and bipartition enumerations `b1, b2` of
the two trees being compared. -/
def tree_distance_model (c1 c2 b1 b2 : List (Finset Nat)) : Method → Nat
  | Method.rooted_robinson_foulds => rf_distance c1.toFinset c2.toFinset
  | Method.matching_cluster => mc_distance c1 c2
  | Method.unrooted_robinson_foulds => rf_distance b1.toFinset b2.toFinset
  | Method.lin_rajan_moret => lrm_distance b1 b2

/-! ## Theorems -/

/-- C6: `compare_trees` in rooted mode leaves the LRM slot absent and
computes MC and rooted RF exactly when their flags are set; in unrooted
mode it leaves the MC slot absent and computes LRM and unrooted RF
exactly when their flags are set.  A slot is `some` exactly when the
metric is both applicable to the mode and requested. -/
theorem c6_mode_filtering (td : Method → Nat) (mc rf lrm : Bool) :
    (compare_trees td mc rf lrm true).2.2 = none ∧
    (compare_trees td mc rf lrm true).1 =
      (if mc then some (td Method.matching_cluster) else none) ∧
    (compare_trees td mc rf lrm true).2.1 =
      (if rf then some (td Method.rooted_robinson_foulds) else none) ∧
    (compare_trees td mc rf lrm false).1 = none ∧
    (compare_trees td mc rf lrm false).2.1 =
      (if rf then some (td Method.unrooted_robinson_foulds) else none) ∧
    (compare_trees td mc rf lrm false).2.2 =
      (if lrm then some (td Method.lin_rajan_moret) else none) := by
  simp [compare_trees]

/-- C7: when zero metric flags are supplied all three metrics are
enabled; when at least one is supplied, exactly the supplied flags are
kept. -/
theorem c7_default_all (mc rf lrm : Bool) :
    (mc = false → rf = false → lrm = false →
      apply_default_metrics mc rf lrm = (true, true, true)) ∧
    ((mc || rf || lrm) = true →
      apply_default_metrics mc rf lrm = (mc, rf, lrm)) := by
  cases mc <;> cases rf <;> cases lrm <;> simp [apply_default_metrics]

theorem c7_default_all_witness :
    (false = false → false = false → false = false →
      apply_default_metrics false false false = (true, true, true)) ∧
    apply_default_metrics false false false = (true, true, true) :=
  ⟨(c7_default_all false false false).1, (c7_default_all false false false).1 rfl rfl rfl⟩

/-- C4: `validateArgs` reports a conflicting-rooting-modes error exactly
when outgroup and midpoint are both set, or the unrooted flag is set
together with outgroup or midpoint; it reports the no-rooting-method
error exactly when none of outgroup, midpoint and unrooted is set.  In
every other configuration neither of these configuration errors is
raised (the only remaining failure, covered by C5, is the distinct
multiple-outgroups `RootError`). -/
theorem c4_config_guards (a : Args) :
    ((∃ e, validateArgs a = Except.error e ∧ e.isConflictingRooting = true) ↔
      (strTruthy a.outgroup = true ∧ a.midpoint = true) ∨
        (a.unrooted = true ∧ (strTruthy a.outgroup = true ∨ a.midpoint = true))) ∧
    (validateArgs a = Except.error PhyloError.noRootingMethod ↔
      (strTruthy a.outgroup = false ∧ a.midpoint = false ∧ a.unrooted = false)) := by
  cases hog : strTruthy a.outgroup <;> cases hm : a.midpoint <;> cases hu : a.unrooted <;>
    simp [validateArgs, hog, hm, hu, PhyloError.isConflictingRooting]
  split <;> simp [PhyloError.isConflictingRooting]

/-- C5: two or more comma-separated outgroup labels, in a configuration
not already rejected by a conflicting-rooting-modes guard, make the run
fail with the multiple-outgroups error; the failing trace contains no
`import_tree` event. -/
theorem c5_multiple_outgroups (a : Args) (td : Method → Nat)
    (h1 : strTruthy a.outgroup = true) (h2 : a.midpoint = false) (h3 : a.unrooted = false)
    (h4 : 1 < (pySplit (a.outgroup.getD "") ',').length) :
    main_trace a td = Except.error PhyloError.multipleOutgroups := by
  simp [main_trace, validateArgs, h1, h2, h3, h4]

theorem c5_multiple_outgroups_witness :
    strTruthy (some "a,b") = true ∧
    1 < (pySplit ((some "a,b").getD "") ',').length ∧
    main_trace ⟨"t1", "t2", some "a,b", false, false, true, true, true⟩ (fun _ => 0) =
      Except.error PhyloError.multipleOutgroups :=
  ⟨rfl, by decide,
    c5_multiple_outgroups ⟨"t1", "t2", some "a,b", false, false, true, true, true⟩
      (fun _ => 0) rfl rfl rfl (by decide)⟩

/-- C8: whenever configuration validation fails, `main` surfaces exactly
that error and produces no event trace at all — in particular
`import_tree` is never called on either input path. -/
theorem c8_validation_before_import (a : Args) (td : Method → Nat) (e : PhyloError)
    (h : validateArgs a = Except.error e) :
    main_trace a td = Except.error e ∧
      ∀ evs : List Event, main_trace a td ≠ Except.ok evs := by
  simp [main_trace, h]

theorem c8_validation_before_import_witness :
    validateArgs ⟨"t1", "t2", none, false, false, true, true, true⟩ =
      Except.error PhyloError.noRootingMethod ∧
    (main_trace ⟨"t1", "t2", none, false, false, true, true, true⟩ (fun _ => 0) =
        Except.error PhyloError.noRootingMethod ∧
      ∀ evs : List Event,
        main_trace ⟨"t1", "t2", none, false, false, true, true, true⟩ (fun _ => 0) ≠
          Except.ok evs) :=
  ⟨rfl, c8_validation_before_import ⟨"t1", "t2", none, false, false, true, true, true⟩
    (fun _ => 0) PhyloError.noRootingMethod rfl⟩

/-- C10: every successful run imports both trees with identical rooting
parameters — one outgroup label list and one midpoint flag are used for
both `import_tree` calls. -/
theorem c10_same_rooting_params (a : Args) (td : Method → Nat) (evs : List Event)
    (h : main_trace a td = Except.ok evs) :
    ∃ og res, evs = [Event.importTree a.tree1 og a.midpoint,
                     Event.importTree a.tree2 og a.midpoint,
                     Event.writeResults res] := by
  unfold main_trace at h
  rcases hv : validateArgs a with e | p
  · rw [hv] at h
    simp at h
  · rw [hv] at h
    obtain ⟨rooted, og⟩ := p
    simp only [Except.ok.injEq] at h
    exact ⟨og, _, h.symm⟩

theorem c10_same_rooting_params_witness :
    main_trace ⟨"t1", "t2", none, false, true, true, true, true⟩ (fun _ => 0) =
      Except.ok [Event.importTree "t1" [] false, Event.importTree "t2" [] false,
                 Event.writeResults (none, some 0, some 0)] ∧
    ∃ og res,
      [Event.importTree "t1" [] false, Event.importTree "t2" [] false,
       Event.writeResults (none, some 0, some 0)] =
        [Event.importTree "t1" og false, Event.importTree "t2" og false,
         Event.writeResults res] :=
  ⟨rfl, c10_same_rooting_params ⟨"t1", "t2", none, false, true, true, true, true⟩
    (fun _ => 0) _ rfl⟩

/-- C3 counterexample: with the unrooted flag set and the
matching-cluster metric explicitly requested, `main` does not reject
the combination — the run succeeds, both trees are imported, the
comparison runs, and the MC slot is silently left absent. -/
theorem c3_counterexample :
    main_trace ⟨"t1", "t2", none, false, true, true, true, true⟩ (fun _ => 0) =
      Except.ok [Event.importTree "t1" [] false, Event.importTree "t2" [] false,
                 Event.writeResults (none, some 0, some 0)] := rfl

/-- C3 amended: requesting MC together with unrooted comparison (or LRM
together with rooted comparison) is not rejected; every configuration
that passes validation — unrooted, midpoint-rooted or outgroup-rooted —
runs to completion with no error, the inapplicable metric being
silently skipped: its result slot is absent in rooted mode for LRM and
in unrooted mode for MC, regardless of which metric flags were
passed. -/
theorem c3_amended_silent_skip (a : Args) (td : Method → Nat) (rooted : Bool)
    (og : List String) (h : validateArgs a = Except.ok (rooted, og)) :
    main_trace a td = Except.ok
      [Event.importTree a.tree1 og a.midpoint, Event.importTree a.tree2 og a.midpoint,
       Event.writeResults (compare_trees td a.matching_cluster a.robinson_foulds
         a.lin_rajan_moret rooted)] ∧
    (rooted = true →
      (compare_trees td a.matching_cluster a.robinson_foulds a.lin_rajan_moret rooted).2.2 =
        none) ∧
    (rooted = false →
      (compare_trees td a.matching_cluster a.robinson_foulds a.lin_rajan_moret rooted).1 =
        none) := by
  refine ⟨by simp [main_trace, h], ?_, ?_⟩
  · rintro rfl
    simp [compare_trees]
  · rintro rfl
    simp [compare_trees]

theorem c3_amended_silent_skip_witness :
    validateArgs ⟨"x", "y", some "A", false, false, false, false, true⟩ =
      Except.ok (true, ["A"]) ∧
    (main_trace ⟨"x", "y", some "A", false, false, false, false, true⟩ (fun _ => 0) =
      Except.ok
        [Event.importTree "x" ["A"] false, Event.importTree "y" ["A"] false,
         Event.writeResults (compare_trees (fun _ => 0) false false true true)] ∧
    (true = true → (compare_trees (fun _ => 0) false false true true).2.2 = none) ∧
    (true = false → (compare_trees (fun _ => 0) false false true true).1 = none)) :=
  ⟨rfl, c3_amended_silent_skip ⟨"x", "y", some "A", false, false, false, false, true⟩
    (fun _ => 0) true ["A"] rfl⟩

/-- C1: evaluation of the output path at a run where the RF distance is
0 and the MC distance is 2 — the field written under the
`#robinson_foulds_distance` header column is `2`, the MC distance, and
the field under `matching_cluster_distance` is `0`, the RF distance:
`compare_trees` returns `(mc, rf, lrm)` while the header written by
`output_results` announces `(rf, mc, lrm)`. -/
theorem c1_swapped_columns :
    output_results (compare_trees
        (fun m => match m with | Method.matching_cluster => 2 | _ => 0)
        true true true true) =
      ["#robinson_foulds_distance\tmatching_cluster_distance\tlin-rajan-moret_distance",
       "2\t0\tNone"] ∧
    (output_fields (compare_trees
        (fun m => match m with | Method.matching_cluster => 2 | _ => 0)
        true true true true)).getD 0 "" = "2" ∧
    (fun m => match m with | Method.matching_cluster => 2 | _ => 0)
        Method.rooted_robinson_foulds = 0 :=
  ⟨rfl, rfl, rfl⟩

/-- C2 counterexample: a result whose first and third metrics are absent
is rendered with the text `None` in those fields, not with an empty
field — the data line reads `None<TAB>0<TAB>None`. -/
theorem c2_counterexample :
    (output_fields (none, some 0, none)).getD 0 "" = "None" ∧
    "None" ≠ "" ∧
    (output_results (none, some 0, none)).getD 1 "" = "None\t0\tNone" :=
  ⟨rfl, by decide, rfl⟩

/-- C2 amended: an absent metric is rendered as the text `None`
(Python's rendering of the `None` value), which is neither the empty
string nor the text `0`. -/
theorem c2_amended_none_text (r : Option Nat × Option Nat × Option Nat) :
    (r.1 = none → (output_fields r).getD 0 "" = "None") ∧
    (r.2.1 = none → (output_fields r).getD 1 "" = "None") ∧
    (r.2.2 = none → (output_fields r).getD 2 "" = "None") ∧
    "None" ≠ "" ∧ "None" ≠ "0" := by
  refine ⟨fun h => ?_, fun h => ?_, fun h => ?_, by decide, by decide⟩ <;>
    simp [output_fields, pyFormat, h]

theorem c2_amended_none_text_witness :
    ((none, some 0, none) : Option Nat × Option Nat × Option Nat).1 = none ∧
    (output_fields (none, some 0, none)).getD 0 "" = "None" :=
  ⟨rfl, (c2_amended_none_text (none, some 0, none)).1 rfl⟩

/-! ## Properties of the minimum-weight matching -/

theorem foldl_min_le_init : ∀ (l : List Nat) (a : Nat), l.foldl min a ≤ a := by
  intro l
  induction l with
  | nil => intro a; simp
  | cons x xs ih => intro a; exact le_trans (ih (min a x)) (min_le_left a x)

theorem foldl_min_le_of_mem :
    ∀ (l : List Nat) (a x : Nat), x ∈ l → l.foldl min a ≤ x := by
  intro l
  induction l with
  | nil => intro a x hx; cases hx
  | cons y ys ih =>
      intro a x hx
      rcases List.mem_cons.mp hx with h | h
      · subst h
        exact le_trans (foldl_min_le_init ys (min a x)) (min_le_right a x)
      · exact ih (min a y) x h

theorem foldl_min_eq_init_or_mem :
    ∀ (l : List Nat) (a : Nat), l.foldl min a = a ∨ l.foldl min a ∈ l := by
  intro l
  induction l with
  | nil => intro a; left; rfl
  | cons y ys ih =>
      intro a
      rcases ih (min a y) with h | h
      · rcases min_choice a y with hm | hm
        · left; rw [List.foldl_cons, h, hm]
        · right; rw [List.foldl_cons, h, hm]; exact List.mem_cons_self y ys
      · right; exact List.mem_cons_of_mem y h

theorem pickOne_perm {α : Type} :
    ∀ (ys : List α) (p : α × List α), p ∈ pickOne ys → ys.Perm (p.1 :: p.2) := by
  intro ys
  induction ys with
  | nil => intro p hp; cases hp
  | cons y ys ih =>
      intro p hp
      rcases List.mem_cons.mp hp with h | h
      · subst h; exact List.Perm.refl _
      · rcases List.mem_map.mp h with ⟨q, hq, hq2⟩
        subst hq2
        exact ((ih q hq).cons y).trans (List.Perm.swap q.1 y q.2)

theorem pickOne_mem_of_mem {α : Type} :
    ∀ (ys : List α) (x : α), x ∈ ys →
      ∃ zs, (x, zs) ∈ pickOne ys ∧ ys.Perm (x :: zs) := by
  intro ys
  induction ys with
  | nil => intro x hx; cases hx
  | cons y ys ih =>
      intro x hx
      rcases List.mem_cons.mp hx with h | h
      · subst h
        exact ⟨ys, List.mem_cons_self _ _, List.Perm.refl _⟩
      · rcases ih x h with ⟨zs, hmem, hperm⟩
        refine ⟨y :: zs, ?_, ?_⟩
        · exact List.mem_cons_of_mem _ (List.mem_map.mpr ⟨(x, zs), hmem, rfl⟩)
        · exact (hperm.cons y).trans (List.Perm.swap x y zs)

/-- A matching between a list and any permutation of it, under a cost
that vanishes on the diagonal, has minimum total cost zero. -/
theorem minMatch_zero_of_perm {α : Type} (cost : α → α → Nat) (pen : α → Nat)
    (hc : ∀ x, cost x x = 0) :
    ∀ (l1 l2 : List α), l1.Perm l2 → minMatch cost pen l1 l2 = 0 := by
  intro l1
  induction l1 with
  | nil =>
      intro l2 hp
      rw [(hp.symm).eq_nil]
      simp [minMatch]
  | cons x xs ih =>
      intro l2 hp
      have hx : x ∈ l2 := hp.mem_iff.mp (List.mem_cons_self x xs)
      rcases pickOne_mem_of_mem l2 x hx with ⟨zs, hmem, hperm⟩
      have hxs : xs.Perm zs := List.Perm.cons_inv (hp.trans hperm)
      have hval : cost x x + minMatch cost pen xs zs = 0 := by
        rw [hc x, ih zs hxs]
      have hmm : cost x x + minMatch cost pen xs zs ∈
          (pickOne l2).map (fun p => cost x p.1 + minMatch cost pen xs p.2) :=
        List.mem_map.mpr ⟨(x, zs), hmem, rfl⟩
      have hle := foldl_min_le_of_mem _ (pen x + minMatch cost pen xs l2) _ hmm
      rw [hval] at hle
      simp only [minMatch]
      exact Nat.le_zero.mp hle

/-- Conversely, a zero-cost minimum matching forces the two lists to be
permutations of each other, provided penalties are positive on their
members and the cost separates points. -/
theorem perm_of_minMatch_zero {α : Type} (cost : α → α → Nat) (pen : α → Nat)
    (hc : ∀ x y, cost x y = 0 → x = y) :
    ∀ (l1 l2 : List α), (∀ x ∈ l1, 0 < pen x) → (∀ y ∈ l2, 0 < pen y) →
      minMatch cost pen l1 l2 = 0 → l1.Perm l2 := by
  intro l1
  induction l1 with
  | nil =>
      intro l2 _ hpen2 h0
      cases l2 with
      | nil => exact List.Perm.refl _
      | cons y ys =>
          exfalso
          simp only [minMatch, List.map_cons, List.sum_cons] at h0
          have hy := hpen2 y (List.mem_cons_self y ys)
          omega
  | cons x xs ih =>
      intro l2 hpen1 hpen2 h0
      simp only [minMatch] at h0
      rcases foldl_min_eq_init_or_mem
          ((pickOne l2).map (fun p => cost x p.1 + minMatch cost pen xs p.2))
          (pen x + minMatch cost pen xs l2) with hcase | hcase
      · exfalso
        rw [h0] at hcase
        have hx := hpen1 x (List.mem_cons_self x xs)
        omega
      · rw [h0] at hcase
        rcases List.mem_map.mp hcase with ⟨p, hpmem, hpval⟩
        have hcost : cost x p.1 = 0 := by omega
        have hrest : minMatch cost pen xs p.2 = 0 := by omega
        have hxp : x = p.1 := hc _ _ hcost
        have hl2 : l2.Perm (p.1 :: p.2) := pickOne_perm l2 p hpmem
        have hpen2' : ∀ y ∈ p.2, 0 < pen y := by
          intro y hy
          exact hpen2 y (hl2.mem_iff.mpr (List.mem_cons_of_mem _ hy))
        have hpen1' : ∀ y ∈ xs, 0 < pen y := by
          intro y hy
          exact hpen1 y (List.mem_cons_of_mem _ hy)
        have hxs : xs.Perm p.2 := ih p.2 hpen1' hpen2' hrest
        exact ((hxs.cons x).trans (by rw [hxp])).trans hl2.symm

theorem cluster_mismatch_self (X : Finset Nat) : cluster_mismatch X X = 0 := by
  simp [cluster_mismatch]

theorem cluster_mismatch_eq_zero {X Y : Finset Nat} :
    cluster_mismatch X Y = 0 ↔ X = Y := by
  unfold cluster_mismatch
  rw [Finset.card_eq_zero, Finset.union_eq_empty,
    Finset.sdiff_eq_empty_iff_subset, Finset.sdiff_eq_empty_iff_subset]
  constructor
  · rintro ⟨h1, h2⟩
    exact Finset.Subset.antisymm h1 h2
  · rintro rfl
    exact ⟨Finset.Subset.refl _, Finset.Subset.refl _⟩

theorem rf_distance_eq_zero_iff (A B : Finset (Finset Nat)) :
    rf_distance A B = 0 ↔ A = B := by
  unfold rf_distance
  rw [Finset.card_eq_zero, Finset.union_eq_empty,
    Finset.sdiff_eq_empty_iff_subset, Finset.sdiff_eq_empty_iff_subset]
  constructor
  · rintro ⟨h1, h2⟩
    exact Finset.Subset.antisymm h1 h2
  · rintro rfl
    exact ⟨Finset.Subset.refl _, Finset.Subset.refl _⟩

/-- The Matching Cluster distance is zero exactly when the two cluster
sets coincide, provided every cluster is nonempty and each enumeration
is duplicate-free. -/
theorem mc_distance_eq_zero_iff (A B : List (Finset Nat))
    (hA : ∀ X ∈ A, X.Nonempty) (hB : ∀ X ∈ B, X.Nonempty)
    (nA : A.Nodup) (nB : B.Nodup) :
    mc_distance A B = 0 ↔ A.toFinset = B.toFinset := by
  constructor
  · intro h
    have hperm := perm_of_minMatch_zero cluster_mismatch Finset.card
      (fun x y hxy => cluster_mismatch_eq_zero.mp hxy) A B
      (fun X hX => Finset.card_pos.mpr (hA X hX))
      (fun Y hY => Finset.card_pos.mpr (hB Y hY)) h
    ext X
    simp only [List.mem_toFinset]
    exact hperm.mem_iff
  · intro h
    exact minMatch_zero_of_perm cluster_mismatch Finset.card cluster_mismatch_self A B
      (List.perm_of_nodup_nodup_toFinset_eq nA nB h)

/-- Every applicable self-distance of the spec-modelled oracle is
zero. -/
theorem tree_distance_model_self (C Bp : List (Finset Nat)) (m : Method) :
    tree_distance_model C C Bp Bp m = 0 := by
  cases m with
  | rooted_robinson_foulds => exact (rf_distance_eq_zero_iff _ _).mpr rfl
  | matching_cluster =>
      exact minMatch_zero_of_perm _ _ cluster_mismatch_self C C (List.Perm.refl C)
  | unrooted_robinson_foulds => exact (rf_distance_eq_zero_iff _ _).mpr rfl
  | lin_rajan_moret =>
      exact minMatch_zero_of_perm _ _ cluster_mismatch_self Bp Bp (List.Perm.refl Bp)

/-- C9: comparing a tree with itself yields 0 for every metric slot the
orchestrator computes, in either mode and under any flag combination;
and each spec-modelled distance is non-negative and zero exactly when
the two cluster / bipartition sets are identical (clusters being
nonempty leaf sets enumerated without duplicates). -/
theorem c9_self_zero_and_separation (C Bp A B : List (Finset Nat))
    (mcf rff lrmf rooted : Bool)
    (hA : ∀ X ∈ A, X.Nonempty) (hB : ∀ X ∈ B, X.Nonempty)
    (nA : A.Nodup) (nB : B.Nodup) :
    (∀ v : Nat,
      ((compare_trees (tree_distance_model C C Bp Bp) mcf rff lrmf rooted).1 = some v ∨
       (compare_trees (tree_distance_model C C Bp Bp) mcf rff lrmf rooted).2.1 = some v ∨
       (compare_trees (tree_distance_model C C Bp Bp) mcf rff lrmf rooted).2.2 = some v) →
      v = 0) ∧
    (0 ≤ rf_distance A.toFinset B.toFinset ∧ 0 ≤ mc_distance A B ∧ 0 ≤ lrm_distance A B) ∧
    (rf_distance A.toFinset B.toFinset = 0 ↔ A.toFinset = B.toFinset) ∧
    (mc_distance A B = 0 ↔ A.toFinset = B.toFinset) ∧
    (lrm_distance A B = 0 ↔ A.toFinset = B.toFinset) := by
  refine ⟨?_, ⟨Nat.zero_le _, Nat.zero_le _, Nat.zero_le _⟩,
    rf_distance_eq_zero_iff _ _, mc_distance_eq_zero_iff A B hA hB nA nB,
    mc_distance_eq_zero_iff A B hA hB nA nB⟩
  intro v hv
  cases rooted <;> cases mcf <;> cases rff <;> cases lrmf <;>
    simp [compare_trees, tree_distance_model_self] at hv <;> simp [hv]

theorem c9_self_zero_and_separation_witness :
    (∀ X ∈ ([{0}] : List (Finset Nat)), X.Nonempty) ∧
    (∀ X ∈ ([{0}, {1}] : List (Finset Nat)), X.Nonempty) ∧
    ([{0}] : List (Finset Nat)).Nodup ∧
    ([{0}, {1}] : List (Finset Nat)).Nodup ∧
    ((∀ v : Nat,
      ((compare_trees (tree_distance_model [{0}] [{0}] [{1}] [{1}]) true true true true).1 =
          some v ∨
       (compare_trees (tree_distance_model [{0}] [{0}] [{1}] [{1}]) true true true true).2.1 =
          some v ∨
       (compare_trees (tree_distance_model [{0}] [{0}] [{1}] [{1}]) true true true true).2.2 =
          some v) →
      v = 0) ∧
    (0 ≤ rf_distance ([{0}] : List (Finset Nat)).toFinset
          ([{0}, {1}] : List (Finset Nat)).toFinset ∧
      0 ≤ mc_distance [{0}] [{0}, {1}] ∧ 0 ≤ lrm_distance [{0}] [{0}, {1}]) ∧
    (rf_distance ([{0}] : List (Finset Nat)).toFinset
          ([{0}, {1}] : List (Finset Nat)).toFinset = 0 ↔
        ([{0}] : List (Finset Nat)).toFinset = ([{0}, {1}] : List (Finset Nat)).toFinset) ∧
    (mc_distance [{0}] [{0}, {1}] = 0 ↔
        ([{0}] : List (Finset Nat)).toFinset = ([{0}, {1}] : List (Finset Nat)).toFinset) ∧
    (lrm_distance [{0}] [{0}, {1}] = 0 ↔
        ([{0}] : List (Finset Nat)).toFinset = ([{0}, {1}] : List (Finset Nat)).toFinset)) :=
  ⟨by decide, by decide, by decide, by decide,
    c9_self_zero_and_separation [{0}] [{1}] [{0}] [{0}, {1}] true true true true
      (by decide) (by decide) (by decide) (by decide)⟩
